import Mathlib

/-!
Verification of the Aave V3 Monte Carlo Value-at-Risk simulation engine
(`scripts/monte_carlo_simulation.py`).

The numeric values of the Python program (floats) are modelled by an
arbitrary linear ordered field `α` (instantiated at `ℚ` for concrete
evaluation and at `ℝ` where the code takes an exponential).  Python
dictionaries keyed by asset symbol are modelled as association lists
(`List (String × α)`) with `List.lookup`; `dict.get(k, default)` becomes
`(l.lookup k).getD default`.
-/

namespace AaveVaR

variable {α : Type} [LinearOrderedField α]

/-- A collateral position row, as built by `_load_users_and_positions`:
symbol, amount, liquidation_threshold, usage_as_collateral_enabled. -/
structure CollateralLeg (α : Type) where
  symbol : String
  amount : α
  liquidation_threshold : α
  usage_as_collateral_enabled : Bool
deriving Repr, DecidableEq

/-- A debt position row: symbol and amount. -/
structure DebtLeg (α : Type) where
  symbol : String
  amount : α
deriving Repr, DecidableEq

/-- A user record, as built by `_load_users_and_positions`: collateral and
debt legs plus the `user_emode_category` id (0 when the DB column is null). -/
structure User (α : Type) where
  address : String
  collateral : List (CollateralLeg α)
  debt : List (DebtLeg α)
  user_emode_category : Nat
deriving Repr, DecidableEq

/-- An E-Mode category row (`_load_emode_categories`); only `lt` is read by
the solvency evaluator. -/
structure EModeCategory (α : Type) where
  label : String
  ltv : α
  lt : α
  bonus : α
deriving Repr, DecidableEq

/-- The E-Mode table `self.emode_categories : id → category`. -/
abbrev EModeTable (α : Type) := List (Nat × EModeCategory α)

/-- The price lookup performed in `calculate_user_bad_debt`:
`simulated_prices.get(symbol, self.asset_prices.get(symbol, 0))`. -/
def price_of (simulated_prices asset_prices : List (String × α)) (symbol : String) : α :=
  match simulated_prices.lookup symbol with
  | some p => p
  | none => (asset_prices.lookup symbol).getD 0

/-- The E-Mode threshold selection at the top of `calculate_user_bad_debt`:
`emode_lt = None; if user_emode > 0 and user_emode in self.emode_categories:
emode_lt = self.emode_categories[user_emode]['lt']`. -/
def emode_lt_of (emode_categories : EModeTable α) (user_emode : Nat) : Option α :=
  if user_emode > 0 then (emode_categories.lookup user_emode).map (fun c => c.lt)
  else none

/-- The debt loop of `calculate_user_bad_debt`:
`total_debt = 0.0; for debt_pos in user['debt']: total_debt += amount * price`. -/
def total_debt (asset_prices simulated_prices : List (String × α))
    (debt : List (DebtLeg α)) : α :=
  debt.foldl (fun acc d => acc + d.amount * price_of simulated_prices asset_prices d.symbol) 0

/-- The collateral loop of `calculate_user_bad_debt`: legs with
`usage_as_collateral_enabled` false are skipped (`continue`); each kept leg
adds `amount * price * lt` where `lt` is the E-Mode threshold when
`emode_lt is not None`, else the leg's own threshold. -/
def recoverable_collateral (emode_lt : Option α)
    (asset_prices simulated_prices : List (String × α))
    (collateral : List (CollateralLeg α)) : α :=
  collateral.foldl
    (fun acc c =>
      if c.usage_as_collateral_enabled then
        acc + c.amount * price_of simulated_prices asset_prices c.symbol *
          (emode_lt.getD c.liquidation_threshold)
      else acc) 0

/-- `calculate_user_bad_debt(user, simulated_prices)`:
`bad_debt = max(0.0, total_debt - recoverable_collateral)`. -/
def calculate_user_bad_debt (emode_categories : EModeTable α)
    (asset_prices : List (String × α)) (user : User α)
    (simulated_prices : List (String × α)) : α :=
  max 0 (total_debt asset_prices simulated_prices user.debt -
    recoverable_collateral (emode_lt_of emode_categories user.user_emode_category)
      asset_prices simulated_prices user.collateral)

/-- Spec-side formulation of step 1 of §4.2: `total_debt = Σ over debt legs
of (amount × price[asset])`. -/
def total_debt_spec (asset_prices simulated_prices : List (String × α))
    (debt : List (DebtLeg α)) : α :=
  (debt.map (fun d => d.amount * price_of simulated_prices asset_prices d.symbol)).sum

/-- Spec-side formulation of step 3 of §4.2: `recoverable = Σ over collateral
legs where enabled-as-collateral of (amount × price[asset] × effective_threshold)`,
with the effective threshold given by `lt_of`. -/
def recoverable_spec (lt_of : CollateralLeg α → α)
    (asset_prices simulated_prices : List (String × α))
    (collateral : List (CollateralLeg α)) : α :=
  ((collateral.filter (fun c => c.usage_as_collateral_enabled)).map
    (fun c => c.amount * price_of simulated_prices asset_prices c.symbol * lt_of c)).sum

lemma foldl_add_eq_sum {β : Type} (f : β → α) :
    ∀ (l : List β) (init : α),
      l.foldl (fun acc b => acc + f b) init = init + (l.map f).sum := by
  intro l
  induction l with
  | nil => intro init; simp
  | cons b bs ih =>
    intro init
    simp only [List.foldl_cons, List.map_cons, List.sum_cons]
    rw [ih]
    ring

lemma foldl_add_if_eq_sum {β : Type} (p : β → Bool) (f : β → α) :
    ∀ (l : List β) (init : α),
      l.foldl (fun acc b => if p b then acc + f b else acc) init
        = init + ((l.filter p).map f).sum := by
  intro l
  induction l with
  | nil => intro init; simp
  | cons b bs ih =>
    intro init
    by_cases hb : p b
    · simp only [List.foldl_cons, hb, if_true, List.filter_cons_of_pos hb,
        List.map_cons, List.sum_cons]
      rw [ih]
      ring
    · simp only [List.foldl_cons, hb, if_false, Bool.false_eq_true,
        List.filter_cons_of_neg, ih]
      rw [List.filter_cons_of_neg (by simp [hb])]

lemma total_debt_eq_spec (asset_prices simulated_prices : List (String × α))
    (debt : List (DebtLeg α)) :
    total_debt asset_prices simulated_prices debt
      = total_debt_spec asset_prices simulated_prices debt := by
  unfold total_debt total_debt_spec
  rw [foldl_add_eq_sum]
  ring

lemma recoverable_eq_spec (emode_lt : Option α)
    (asset_prices simulated_prices : List (String × α))
    (collateral : List (CollateralLeg α)) :
    recoverable_collateral emode_lt asset_prices simulated_prices collateral
      = recoverable_spec (fun c => emode_lt.getD c.liquidation_threshold)
          asset_prices simulated_prices collateral := by
  unfold recoverable_collateral recoverable_spec
  rw [foldl_add_if_eq_sum]
  ring

/-- C1: for every account and every price vector, the solvency evaluator
returns `max 0 (total_debt − recoverable)` where `recoverable` sums
`amount × price × effective_threshold` over exactly the collateral legs
whose enabled-as-collateral flag is true, and the result is always ≥ 0. -/
theorem C1_bad_debt_formula (emode_categories : EModeTable α)
    (asset_prices simulated_prices : List (String × α)) (user : User α) :
    calculate_user_bad_debt emode_categories asset_prices user simulated_prices
      = max 0 (total_debt_spec asset_prices simulated_prices user.debt -
          recoverable_spec
            (fun c => (emode_lt_of emode_categories user.user_emode_category).getD
              c.liquidation_threshold)
            asset_prices simulated_prices user.collateral)
    ∧ 0 ≤ calculate_user_bad_debt emode_categories asset_prices user simulated_prices := by
  constructor
  · unfold calculate_user_bad_debt
    rw [total_debt_eq_spec, recoverable_eq_spec]
  · exact le_max_left 0 _

/-- C2: with a non-zero E-Mode category id present in the table, every
enabled collateral leg is weighted by that category's threshold, uniformly;
with id zero or an id absent from the table, each enabled leg is weighted by
its own liquidation threshold.  `u1` exhibits the first case, `u2` the second. -/
theorem C2_emode_threshold (emode_categories : EModeTable α)
    (asset_prices simulated_prices : List (String × α))
    (u1 u2 : User α) (cat : EModeCategory α)
    (h1 : u1.user_emode_category ≠ 0)
    (h2 : emode_categories.lookup u1.user_emode_category = some cat)
    (h3 : u2.user_emode_category = 0 ∨
      emode_categories.lookup u2.user_emode_category = none) :
    calculate_user_bad_debt emode_categories asset_prices u1 simulated_prices
      = max 0 (total_debt_spec asset_prices simulated_prices u1.debt -
          recoverable_spec (fun _ => cat.lt) asset_prices simulated_prices u1.collateral)
    ∧ calculate_user_bad_debt emode_categories asset_prices u2 simulated_prices
      = max 0 (total_debt_spec asset_prices simulated_prices u2.debt -
          recoverable_spec (fun c => c.liquidation_threshold)
            asset_prices simulated_prices u2.collateral) := by
  have e1 : emode_lt_of emode_categories u1.user_emode_category = some cat.lt := by
    unfold emode_lt_of
    rw [if_pos (Nat.pos_of_ne_zero h1), h2]
    rfl
  have e2 : emode_lt_of emode_categories u2.user_emode_category = none := by
    unfold emode_lt_of
    rcases h3 with h | h
    · rw [h]
      simp
    · by_cases hpos : u2.user_emode_category > 0
      · rw [if_pos hpos, h]
        rfl
      · rw [if_neg hpos]
  constructor
  · unfold calculate_user_bad_debt
    rw [total_debt_eq_spec, recoverable_eq_spec, e1]
    simp only [Option.getD_some]
  · unfold calculate_user_bad_debt
    rw [total_debt_eq_spec, recoverable_eq_spec, e2]
    simp only [Option.getD_none]

/-- Witness for C2 at a concrete table, account pair and price vectors. -/
theorem C2_emode_threshold_witness :
    calculate_user_bad_debt [(1, EModeCategory.mk "eth" 0 (9/10) 0)]
        [("X", (2:ℚ))] (User.mk "a" [] [] 1) []
      = max 0 (total_debt_spec [("X", (2:ℚ))] [] [] -
          recoverable_spec (fun _ => ((9:ℚ)/10)) [("X", (2:ℚ))] [] [])
    ∧ calculate_user_bad_debt [(1, EModeCategory.mk "eth" 0 (9/10) 0)]
        [("X", (2:ℚ))] (User.mk "b" [] [] 0) []
      = max 0 (total_debt_spec [("X", (2:ℚ))] [] [] -
          recoverable_spec (fun c => c.liquidation_threshold) [("X", (2:ℚ))] [] []) :=
  C2_emode_threshold [(1, EModeCategory.mk "eth" 0 (9/10) 0)] [("X", (2:ℚ))] []
    (User.mk "a" [] [] 1) (User.mk "b" [] [] 0) (EModeCategory.mk "eth" 0 (9/10) 0)
    (by decide) rfl (Or.inl rfl)

/-- C3 fails on the code: a debt leg over asset `X` absent from the simulated
price dictionary but priced 5 in the current-price snapshot contributes
`1 × 5 = 5`, not 0, to `total_debt`. -/
theorem C3_counterexample :
    total_debt [("X", (5:ℚ))] [] [DebtLeg.mk "X" 1] = 5
    ∧ ¬ total_debt [("X", (5:ℚ))] [] [DebtLeg.mk "X" 1] = 0 := by
  have h : total_debt [("X", (5:ℚ))] [] [DebtLeg.mk "X" 1] = 5 := by
    unfold total_debt price_of
    norm_num [List.lookup]
  refine ⟨h, ?_⟩
  rw [h]
  norm_num

/-- C3 amended: a leg over an asset absent from the simulated price vector is
valued at the current-price snapshot price; it contributes 0 to `total_debt`
and to the recoverable collateral only when the asset is absent from both the
simulated vector and the snapshot.  Asset `s` is absent from both, asset `t`
only from the simulated vector. -/
theorem C3_amended_missing_price (asset_prices simulated_prices : List (String × α))
    (s t : String) (a b lt p : α)
    (hs1 : simulated_prices.lookup s = none) (hs2 : asset_prices.lookup s = none)
    (ht1 : simulated_prices.lookup t = none) (ht2 : asset_prices.lookup t = some p) :
    total_debt asset_prices simulated_prices [DebtLeg.mk s a] = 0
    ∧ recoverable_collateral none asset_prices simulated_prices
        [CollateralLeg.mk s a lt true] = 0
    ∧ total_debt asset_prices simulated_prices [DebtLeg.mk t b] = b * p
    ∧ recoverable_collateral none asset_prices simulated_prices
        [CollateralLeg.mk t b lt true] = b * p * lt := by
  have es : price_of simulated_prices asset_prices s = 0 := by
    unfold price_of
    rw [hs1, hs2]
    rfl
  have et : price_of simulated_prices asset_prices t = p := by
    unfold price_of
    rw [ht1, ht2]
    rfl
  refine ⟨?_, ?_, ?_, ?_⟩
  · unfold total_debt
    simp [es]
  · unfold recoverable_collateral
    simp [es]
  · unfold total_debt
    simp [et]
  · unfold recoverable_collateral
    simp [et]

/-- Witness for the amended C3 at concrete vectors. -/
theorem C3_amended_missing_price_witness :
    total_debt [("Y", (7:ℚ))] [] [DebtLeg.mk "X" 2] = 0
    ∧ recoverable_collateral none [("Y", (7:ℚ))] [] [CollateralLeg.mk "X" 2 (1/2) true] = 0
    ∧ total_debt [("Y", (7:ℚ))] [] [DebtLeg.mk "Y" 3] = 3 * 7
    ∧ recoverable_collateral none [("Y", (7:ℚ))] [] [CollateralLeg.mk "Y" 3 (1/2) true]
        = 3 * 7 * (1/2) :=
  C3_amended_missing_price [("Y", (7:ℚ))] [] "X" "Y" 2 3 (1/2) 7 rfl (by decide) rfl (by decide)

/-- C10: the evaluator's price lookup falls back to the current-price
snapshot when the asset is absent from the simulated price dictionary, and to
0 only when the asset is absent from both; a debt leg on such an asset is
valued at the current price. -/
theorem C10_price_fallback (simulated_prices asset_prices : List (String × α))
    (s t : String) (p a : α)
    (hs : simulated_prices.lookup s = none)
    (hcur : asset_prices.lookup s = some p)
    (ht : simulated_prices.lookup t = none)
    (htcur : asset_prices.lookup t = none) :
    price_of simulated_prices asset_prices s = p
    ∧ total_debt asset_prices simulated_prices [DebtLeg.mk s a] = a * p
    ∧ price_of simulated_prices asset_prices t = 0 := by
  have es : price_of simulated_prices asset_prices s = p := by
    unfold price_of
    rw [hs, hcur]
    rfl
  refine ⟨es, ?_, ?_⟩
  · unfold total_debt
    simp [es]
  · unfold price_of
    rw [ht, htcur]
    rfl

/-- Witness for C10 at concrete vectors. -/
theorem C10_price_fallback_witness :
    price_of [] [("W", (11:ℚ))] "W" = 11
    ∧ total_debt [("W", (11:ℚ))] [] [DebtLeg.mk "W" 4] = 4 * 11
    ∧ price_of [] [("W", (11:ℚ))] "Z" = 0 :=
  C10_price_fallback [] [("W", (11:ℚ))] "W" "Z" 11 4 rfl (by decide) rfl (by decide)

lemma exists_mem_ge (xs : List α) (hne : xs ≠ []) :
    ∃ m, m ∈ xs ∧ ∀ y ∈ xs, y ≤ m := by
  induction xs with
  | nil => exact absurd rfl hne
  | cons x ys ih =>
    by_cases hys : ys = []
    · subst hys
      refine ⟨x, List.mem_singleton_self x, ?_⟩
      intro y hy
      rw [List.mem_singleton.mp hy]
    · obtain ⟨m, hm, hall⟩ := ih hys
      refine ⟨max x m, ?_, ?_⟩
      · rcases le_total x m with hxm | hmx
        · rw [max_eq_right hxm]
          exact List.mem_cons_of_mem _ hm
        · rw [max_eq_left hmx]
          exact List.mem_cons_self _ _
      · intro y hy
        rcases List.mem_cons.mp hy with rfl | hy
        · exact le_max_left _ _
        · exact (hall y hy).trans (le_max_right _ _)

lemma sum_ge_card_mul (v : α) :
    ∀ l : List α, (∀ x ∈ l, v ≤ x) → (l.length : α) * v ≤ l.sum := by
  intro l
  induction l with
  | nil => simp
  | cons x ys ih =>
    intro hall
    have h1 : v ≤ x := hall x (List.mem_cons_self _ _)
    have h2 := ih (fun y hy => hall y (List.mem_cons_of_mem _ hy))
    simp only [List.length_cons, List.sum_cons]
    push_cast
    nlinarith

/-- Arithmetic mean, `xs.mean()` (0 on the empty list, where numpy yields NaN;
every use below is on a list proved non-empty). -/
def list_mean (xs : List α) : α := xs.sum / (xs.length : α)

lemma mean_ge (v : α) (l : List α) (hne : l ≠ []) (hall : ∀ x ∈ l, v ≤ x) :
    v ≤ list_mean l := by
  unfold list_mean
  have hlen : (0 : α) < (l.length : α) := by
    exact_mod_cast List.length_pos.mpr hne
  rw [le_div_iff₀ hlen]
  calc v * (l.length : α) = (l.length : α) * v := by ring
  _ ≤ l.sum := sum_ge_card_mul v l hall

variable [FloorRing α]

/-- Ascending sort of the loss sample, as performed inside `np.percentile`
and `np.median`. -/
def sortedAsc (xs : List α) : List α :=
  List.insertionSort (fun a b => a ≤ b) xs

/-- Model of `np.percentile(xs, q)` with the default linear interpolation:
virtual index `h = q/100 * (n-1)`, previous index `⌊h⌋`, next index
`min (⌊h⌋+1) (n-1)`, gamma `h - ⌊h⌋`, result `lo + gamma * (hi - lo)`. -/
def np_percentile (xs : List α) (q : α) : α :=
  (sortedAsc xs).getD (⌊q * ((xs.length : α) - 1) / 100⌋).toNat 0
    + (q * ((xs.length : α) - 1) / 100 - ((⌊q * ((xs.length : α) - 1) / 100⌋ : ℤ) : α))
      * ((sortedAsc xs).getD
          (min ((⌊q * ((xs.length : α) - 1) / 100⌋).toNat + 1) (xs.length - 1)) 0
        - (sortedAsc xs).getD (⌊q * ((xs.length : α) - 1) / 100⌋).toNat 0)

/-- Spec-side formulation of §4.3: the qth percentile by linear interpolation
between order statistics, `(1-g)·x_⌊h⌋ + g·x_⌊h⌋₊₁` with `h = q/100·(n-1)`
and `g = h - ⌊h⌋` (upper index clamped to the last order statistic). -/
def percentile_linear (xs : List α) (q : α) : α :=
  (1 - (q * ((xs.length : α) - 1) / 100 - ((⌊q * ((xs.length : α) - 1) / 100⌋ : ℤ) : α)))
      * (sortedAsc xs).getD (⌊q * ((xs.length : α) - 1) / 100⌋).toNat 0
    + (q * ((xs.length : α) - 1) / 100 - ((⌊q * ((xs.length : α) - 1) / 100⌋ : ℤ) : α))
      * (sortedAsc xs).getD
          (min ((⌊q * ((xs.length : α) - 1) / 100⌋).toNat + 1) (xs.length - 1)) 0

lemma np_percentile_eq_linear (xs : List α) (q : α) :
    np_percentile xs q = percentile_linear xs q := by
  unfold np_percentile percentile_linear
  ring

/-- Model of `np.median`: middle order statistic, or the mean of the two
middle ones for an even-length sample. -/
def np_median (xs : List α) : α :=
  if xs.length % 2 = 1 then (sortedAsc xs).getD (xs.length / 2) 0
  else ((sortedAsc xs).getD (xs.length / 2 - 1) 0 + (sortedAsc xs).getD (xs.length / 2) 0) / 2

/-- The metrics record built by `calculate_var_metrics`.  `std_loss` is
omitted: it needs a square root, and no verified property concerns it. -/
structure VarMetrics (α : Type) where
  var_95 : α
  var_99 : α
  var_99_9 : α
  es_95 : α
  es_99 : α
  mean_loss : α
  median_loss : α
  max_loss : α
  min_loss : α
  prob_loss : α

/-- `calculate_var_metrics`: VaR by `np.percentile`, expected shortfall as
`losses[losses >= var_q].mean()`, plus descriptive statistics. -/
def calculate_var_metrics (losses : List α) : VarMetrics α :=
  { var_95 := np_percentile losses 95
    var_99 := np_percentile losses 99
    var_99_9 := np_percentile losses (999 / 10)
    es_95 := list_mean (losses.filter (fun x => decide (np_percentile losses 95 ≤ x)))
    es_99 := list_mean (losses.filter (fun x => decide (np_percentile losses 99 ≤ x)))
    mean_loss := list_mean losses
    median_loss := np_median losses
    max_loss := (losses.max?).getD 0
    min_loss := (losses.min?).getD 0
    prob_loss := ((losses.countP (fun x => decide (0 < x)) : ℕ) : α) / ((losses.length : ℕ) : α) }

lemma np_percentile_le (xs : List α) (hne : xs ≠ []) (q : α)
    (h0 : 0 ≤ q) (h1 : q ≤ 100) (m : α) (hm : ∀ y ∈ xs, y ≤ m) :
    np_percentile xs q ≤ m := by
  have hperm : List.Perm (sortedAsc xs) xs := List.perm_insertionSort _ xs
  have hlen : (sortedAsc xs).length = xs.length := hperm.length_eq
  have hn1 : 1 ≤ xs.length := List.length_pos.mpr hne
  have hget : ∀ j, j < xs.length → ∀ d, (sortedAsc xs).getD j d ≤ m := by
    intro j hj d
    have hj2 : j < (sortedAsc xs).length := by rw [hlen]; exact hj
    rw [List.getD_eq_getElem _ d hj2]
    exact hm _ (hperm.subset (List.getElem_mem hj2))
  set hq : α := q * ((xs.length : α) - 1) / 100 with hdefhq
  have hn0 : (0 : α) ≤ (xs.length : α) - 1 := by
    have : (1 : α) ≤ (xs.length : α) := by exact_mod_cast hn1
    linarith
  have hq0 : 0 ≤ hq := div_nonneg (mul_nonneg h0 hn0) (by norm_num)
  have hqle : hq ≤ (xs.length : α) - 1 := by
    rw [hdefhq, div_le_iff₀ (by norm_num : (0:α) < 100)]
    nlinarith
  have hfl0 : 0 ≤ ⌊hq⌋ := Int.floor_nonneg.mpr hq0
  have hfln : ⌊hq⌋ ≤ (xs.length : ℤ) - 1 := by
    have hc : ((xs.length : α) - 1) = (((xs.length : ℤ) - 1 : ℤ) : α) := by push_cast; ring
    have := Int.floor_le_floor (α := α) hqle
    rwa [hc, Int.floor_intCast] at this
  have hiLt : (⌊hq⌋).toNat < xs.length := by omega
  have hjLt : min ((⌊hq⌋).toNat + 1) (xs.length - 1) < xs.length := by omega
  have hg0 : 0 ≤ hq - ((⌊hq⌋ : ℤ) : α) := sub_nonneg.mpr (Int.floor_le hq)
  have hg1 : hq - ((⌊hq⌋ : ℤ) : α) ≤ 1 := by
    have := Int.lt_floor_add_one hq
    push_cast at this
    linarith
  have hlo := hget _ hiLt (0 : α)
  have hhi := hget _ hjLt (0 : α)
  unfold np_percentile
  rw [← hdefhq]
  nlinarith [mul_nonneg hg0 (sub_nonneg.mpr hhi),
    mul_nonneg (sub_nonneg.mpr hg1) (sub_nonneg.mpr hlo)]

lemma filter_ge_var_sound (xs : List α) (hne : xs ≠ []) (q : α)
    (h0 : 0 ≤ q) (h1 : q ≤ 100) :
    xs.filter (fun x => decide (np_percentile xs q ≤ x)) ≠ []
    ∧ np_percentile xs q
        ≤ list_mean (xs.filter (fun x => decide (np_percentile xs q ≤ x))) := by
  obtain ⟨m, hmem, hall⟩ := exists_mem_ge xs hne
  have hv : np_percentile xs q ≤ m := np_percentile_le xs hne q h0 h1 m hall
  have hmf : m ∈ xs.filter (fun x => decide (np_percentile xs q ≤ x)) :=
    List.mem_filter.mpr ⟨hmem, decide_eq_true hv⟩
  have hne2 := List.ne_nil_of_mem hmf
  refine ⟨hne2, mean_ge _ _ hne2 ?_⟩
  intro x hx
  exact of_decide_eq_true (List.mem_filter.mp hx).2

/-- C5: over a completed (non-empty) loss distribution, each VaR is the
linear-interpolation percentile of §4.3, and each expected shortfall is the
arithmetic mean of the (non-empty) set of losses ≥ the matching VaR,
boundary inclusive. -/
theorem C5_var_es_definitions (losses : List α) (hne : losses ≠ []) :
    (calculate_var_metrics losses).var_95 = percentile_linear losses 95
    ∧ (calculate_var_metrics losses).var_99 = percentile_linear losses 99
    ∧ (calculate_var_metrics losses).var_99_9 = percentile_linear losses (999 / 10)
    ∧ (calculate_var_metrics losses).es_95
        = list_mean (losses.filter
            (fun x => decide ((calculate_var_metrics losses).var_95 ≤ x)))
    ∧ losses.filter (fun x => decide ((calculate_var_metrics losses).var_95 ≤ x)) ≠ []
    ∧ (calculate_var_metrics losses).es_99
        = list_mean (losses.filter
            (fun x => decide ((calculate_var_metrics losses).var_99 ≤ x)))
    ∧ losses.filter (fun x => decide ((calculate_var_metrics losses).var_99 ≤ x)) ≠ [] := by
  refine ⟨np_percentile_eq_linear losses 95, np_percentile_eq_linear losses 99,
    np_percentile_eq_linear losses (999 / 10), rfl, ?_, rfl, ?_⟩
  · exact (filter_ge_var_sound losses hne 95 (by norm_num) (by norm_num)).1
  · exact (filter_ge_var_sound losses hne 99 (by norm_num) (by norm_num)).1

/-- Witness for C5 on the one-point distribution `[0]` over `ℚ`. -/
theorem C5_var_es_definitions_witness :
    (calculate_var_metrics [(0:ℚ)]).var_95 = percentile_linear [(0:ℚ)] 95
    ∧ (calculate_var_metrics [(0:ℚ)]).var_99 = percentile_linear [(0:ℚ)] 99
    ∧ (calculate_var_metrics [(0:ℚ)]).var_99_9 = percentile_linear [(0:ℚ)] (999 / 10)
    ∧ (calculate_var_metrics [(0:ℚ)]).es_95
        = list_mean (([(0:ℚ)]).filter
            (fun x => decide ((calculate_var_metrics [(0:ℚ)]).var_95 ≤ x)))
    ∧ ([(0:ℚ)]).filter (fun x => decide ((calculate_var_metrics [(0:ℚ)]).var_95 ≤ x)) ≠ []
    ∧ (calculate_var_metrics [(0:ℚ)]).es_99
        = list_mean (([(0:ℚ)]).filter
            (fun x => decide ((calculate_var_metrics [(0:ℚ)]).var_99 ≤ x)))
    ∧ ([(0:ℚ)]).filter (fun x => decide ((calculate_var_metrics [(0:ℚ)]).var_99 ≤ x)) ≠ [] :=
  C5_var_es_definitions [(0:ℚ)] (by simp)

/-- C9: over every non-empty loss distribution, `ES_99 ≥ VaR_99` and
`ES_95 ≥ VaR_95`. -/
theorem C9_tail_consistency (losses : List α) (hne : losses ≠ []) :
    (calculate_var_metrics losses).var_99 ≤ (calculate_var_metrics losses).es_99
    ∧ (calculate_var_metrics losses).var_95 ≤ (calculate_var_metrics losses).es_95 := by
  constructor
  · exact (filter_ge_var_sound losses hne 99 (by norm_num) (by norm_num)).2
  · exact (filter_ge_var_sound losses hne 95 (by norm_num) (by norm_num)).2

/-- Witness for C9 on the two-point distribution `[1, 2]` over `ℚ`. -/
theorem C9_tail_consistency_witness :
    (calculate_var_metrics [(1:ℚ), 2]).var_99 ≤ (calculate_var_metrics [(1:ℚ), 2]).es_99
    ∧ (calculate_var_metrics [(1:ℚ), 2]).var_95 ≤ (calculate_var_metrics [(1:ℚ), 2]).es_95 :=
  C9_tail_consistency [(1:ℚ), 2] (by simp)

/-- One row of `simulate_prices`: for each asset index `i`,
`prices[i] = P_0 · exp(r_i)` with `P_0 = self.asset_prices.get(symbol, 0)`.
In the pipeline every returns row has exactly one entry per asset symbol,
which the zip reflects. -/
noncomputable def simulate_row (asset_prices : List (String × ℝ))
    (asset_symbols : List String) (row : List ℝ) : List ℝ :=
  (asset_symbols.zip row).map
    (fun sr => ((asset_prices.lookup sr.1).getD 0) * Real.exp sr.2)

/-- `simulate_prices(returns)`: the matrix with
`prices[:, i] = P_0 · np.exp(returns[:, i])`, row by row. -/
noncomputable def simulate_prices (asset_prices : List (String × ℝ))
    (asset_symbols : List String) (returns : List (List ℝ)) : List (List ℝ) :=
  returns.map (simulate_row asset_prices asset_symbols)

/-- The scenario loop of `run_simulation`: for `scenario_idx` in
`range(n_simulations)`, build the scenario price dictionary
`{symbol: simulated_prices_matrix[scenario_idx, i]}` and accumulate
`calculate_user_bad_debt` over all users. -/
noncomputable def run_simulation_losses (n_simulations : Nat)
    (asset_symbols : List String) (asset_prices : List (String × ℝ))
    (emode_categories : EModeTable ℝ) (users : List (User ℝ))
    (returns : List (List ℝ)) : List ℝ :=
  (List.range n_simulations).map (fun scenario_idx =>
    users.foldl
      (fun acc u =>
        acc + calculate_user_bad_debt emode_categories asset_prices u
          (asset_symbols.zip
            ((simulate_prices asset_prices asset_symbols returns).getD scenario_idx [])))
      0)

/-- C6: every simulated price equals `current_price × exp(return)`; a return
of exactly 0 reproduces the current price exactly; an asset with no entry in
the price table has simulated price 0 in every scenario. -/
theorem C6_price_simulation (asset_prices : List (String × ℝ))
    (asset_symbols : List String) (returns : List (List ℝ)) (j i : Nat)
    (hj : j < returns.length) (hi : i < asset_symbols.length)
    (hrow : (returns.getD j []).length = asset_symbols.length) :
    ((simulate_prices asset_prices asset_symbols returns).getD j []).getD i 0
      = ((asset_prices.lookup (asset_symbols.getD i "")).getD 0)
          * Real.exp ((returns.getD j []).getD i 0)
    ∧ ((returns.getD j []).getD i 0 = 0 →
        ((simulate_prices asset_prices asset_symbols returns).getD j []).getD i 0
          = (asset_prices.lookup (asset_symbols.getD i "")).getD 0)
    ∧ (asset_prices.lookup (asset_symbols.getD i "") = none →
        ((simulate_prices asset_prices asset_symbols returns).getD j []).getD i 0 = 0) := by
  have h1 : (simulate_prices asset_prices asset_symbols returns).getD j []
      = simulate_row asset_prices asset_symbols (returns.getD j []) := by
    unfold simulate_prices
    rw [List.getD_eq_getElem _ _ (by simpa using hj), List.getElem_map,
      List.getD_eq_getElem _ _ hj]
  have hiz : i < (asset_symbols.zip (returns.getD j [])).length := by
    rw [List.length_zip]
    omega
  have hrowi : i < (returns.getD j []).length := by
    rw [hrow]
    exact hi
  have hmain : ((simulate_prices asset_prices asset_symbols returns).getD j []).getD i 0
      = ((asset_prices.lookup (asset_symbols.getD i "")).getD 0)
          * Real.exp ((returns.getD j []).getD i 0) := by
    rw [h1]
    unfold simulate_row
    rw [List.getD_eq_getElem _ _ (by simpa using hiz), List.getElem_map,
      List.getD_eq_getElem _ _ hi, List.getD_eq_getElem _ _ hrowi]
    simp
  refine ⟨hmain, ?_, ?_⟩
  · intro h0
    rw [hmain, h0, Real.exp_zero, mul_one]
  · intro hnone
    rw [hmain, hnone]
    simp

/-- Witness for C6 on a one-asset, one-scenario, zero-return input. -/
theorem C6_price_simulation_witness :
    ((simulate_prices [("X", (2:ℝ))] ["X"] [[0]]).getD 0 []).getD 0 0
      = ((([("X", (2:ℝ))]).lookup ((["X"]).getD 0 "")).getD 0)
          * Real.exp ((([[(0:ℝ)]]).getD 0 []).getD 0 0)
    ∧ ((([[(0:ℝ)]]).getD 0 []).getD 0 0 = 0 →
        ((simulate_prices [("X", (2:ℝ))] ["X"] [[0]]).getD 0 []).getD 0 0
          = (([("X", (2:ℝ))]).lookup ((["X"]).getD 0 "")).getD 0)
    ∧ (([("X", (2:ℝ))]).lookup ((["X"]).getD 0 "") = none →
        ((simulate_prices [("X", (2:ℝ))] ["X"] [[0]]).getD 0 []).getD 0 0 = 0) :=
  C6_price_simulation [("X", (2:ℝ))] ["X"] [[0]] 0 0 (by norm_num) (by norm_num) rfl

/-- C7: each recorded scenario loss is the sum over all registered accounts
of that scenario's per-account bad debt, and the loss distribution has
exactly `n_simulations` entries. -/
theorem C7_aggregation (n_simulations : Nat) (asset_symbols : List String)
    (asset_prices : List (String × ℝ)) (emode_categories : EModeTable ℝ)
    (users : List (User ℝ)) (returns : List (List ℝ)) (idx : Nat)
    (_hlen : returns.length = n_simulations) (hidx : idx < n_simulations) :
    (run_simulation_losses n_simulations asset_symbols asset_prices
        emode_categories users returns).length = n_simulations
    ∧ (run_simulation_losses n_simulations asset_symbols asset_prices
        emode_categories users returns).getD idx 0
      = (users.map (fun u => calculate_user_bad_debt emode_categories asset_prices u
          (asset_symbols.zip
            ((simulate_prices asset_prices asset_symbols returns).getD idx [])))).sum := by
  constructor
  · unfold run_simulation_losses
    simp
  · unfold run_simulation_losses
    rw [List.getD_eq_getElem _ _ (by simpa using hidx), List.getElem_map,
      List.getElem_range, foldl_add_eq_sum]
    ring

/-- Witness for C7 on a one-scenario input with an empty registry. -/
theorem C7_aggregation_witness :
    (run_simulation_losses 1 ([] : List String) ([] : List (String × ℝ))
        ([] : EModeTable ℝ) ([] : List (User ℝ)) [[]]).length = 1
    ∧ (run_simulation_losses 1 ([] : List String) ([] : List (String × ℝ))
        ([] : EModeTable ℝ) ([] : List (User ℝ)) [[]]).getD 0 0
      = (([] : List (User ℝ)).map (fun u => calculate_user_bad_debt [] [] u
          (([] : List String).zip
            ((simulate_prices [] [] [[]]).getD 0 [])))).sum :=
  C7_aggregation 1 [] [] [] [] [[]] 0 rfl (by norm_num)

/-- The data a run consumes, loaded once by `load_data` and fixed in
`__init__`: scenario count, random seed, snapshot, registry, E-Mode table. -/
structure SimInputs where
  n_simulations : Nat
  random_seed : Nat
  asset_symbols : List String
  asset_prices : List (String × ℝ)
  covariance_matrix : List (List ℝ)
  emode_categories : EModeTable ℝ
  users : List (User ℝ)

/-- The run orchestrator `run` restricted to the computation it performs on
the loaded inputs (database export and plotting excluded).  numpy's globally
seeded generator (`np.random.seed(random_seed)` in `__init__`, consumed by
`np.random.multivariate_normal` in `generate_price_shocks`) is an external
library; it is abstracted as `sampler`, an arbitrary deterministic function
of exactly the data the generator reads: the seed, the covariance matrix and
the draw count. -/
noncomputable def run_pipeline
    (sampler : Nat → List (List ℝ) → Nat → List (List ℝ))
    (inp : SimInputs) : List ℝ :=
  run_simulation_losses inp.n_simulations inp.asset_symbols inp.asset_prices
    inp.emode_categories inp.users
    (sampler inp.random_seed inp.covariance_matrix inp.n_simulations)

/-- C8: two runs with identical inputs, seed and scenario count produce
identical loss distributions — the pipeline is a pure function of the loaded
snapshot, registry, E-Mode table, seed and scenario count, with the seeded
generator a deterministic function of the seed. -/
theorem C8_determinism (sampler : Nat → List (List ℝ) → Nat → List (List ℝ))
    (inp1 inp2 : SimInputs) (h : inp1 = inp2) :
    run_pipeline sampler inp1 = run_pipeline sampler inp2 := by
  rw [h]

/-- Witness for C8: two runs built from the same concrete inputs agree. -/
theorem C8_determinism_witness :
    run_pipeline (fun _ _ _ => []) (SimInputs.mk 1 42 [] [] [] [] [])
      = run_pipeline (fun _ _ _ => []) (SimInputs.mk 1 42 [] [] [] [] []) :=
  C8_determinism (fun _ _ _ => []) _ _ rfl

/-- C4 fails on the code: with an empty account registry (and an empty
covariance matrix and price table) the run does not abort — all 3 scenarios
are evaluated and a length-3 loss distribution is produced. -/
theorem C4_counterexample :
    (SimInputs.mk 3 42 [] [] [] [] []).users = []
    ∧ run_pipeline (fun _ _ _ => [[], [], []]) (SimInputs.mk 3 42 [] [] [] [] [])
        = [0, 0, 0] := by
  constructor
  · rfl
  · rfl

/-- C4 amended: the orchestrator performs no pre-scenario input validation.
For every loaded snapshot `inp` — an empty covariance matrix, a mismatched
asset set, or any other registry and snapshot included — the scenario loop
runs and a loss distribution of length `n_simulations` is produced (first
conjunct, arbitrary `inp`); with an empty account registry (`inp2`) every
scenario loss is 0. -/
theorem C4_amended_no_validation
    (sampler : Nat → List (List ℝ) → Nat → List (List ℝ))
    (inp inp2 : SimInputs) (h : inp2.users = []) :
    (run_pipeline sampler inp).length = inp.n_simulations
    ∧ run_pipeline sampler inp2 = List.replicate inp2.n_simulations 0 := by
  constructor
  · unfold run_pipeline run_simulation_losses
    simp
  · unfold run_pipeline run_simulation_losses
    rw [h]
    simp only [List.foldl_nil]
    simp

/-- Witness for the amended C4: a run whose price table prices asset `B`
while the symbol list and covariance matrix cover asset `A` (mismatched
asset sets) with a non-empty registry still yields a length-1 loss
distribution; an empty-registry run yields `[0, 0]`. -/
theorem C4_amended_no_validation_witness :
    (run_pipeline (fun _ _ n => List.replicate n [(0:ℝ)])
        (SimInputs.mk 1 42 ["A"] [("B", (1:ℝ))] [[1]] []
          [User.mk "u" [] [DebtLeg.mk "B" 1] 0])).length = 1
    ∧ run_pipeline (fun _ _ n => List.replicate n [(0:ℝ)])
        (SimInputs.mk 2 7 [] [] [] [] [])
        = List.replicate 2 0 :=
  C4_amended_no_validation (fun _ _ n => List.replicate n [(0:ℝ)])
    (SimInputs.mk 1 42 ["A"] [("B", (1:ℝ))] [[1]] []
      [User.mk "u" [] [DebtLeg.mk "B" 1] 0])
    (SimInputs.mk 2 7 [] [] [] [] []) rfl

end AaveVaR
